import Mathlib

/-!
Verification development for the REM-sleep signal pipeline in `rem.py`.

The source is a numpy/scipy script.  Signals are embedded as `List ℚ`
(finite sequences of real-valued samples; every quantity the claims
inspect is rational in the embedding).  Fallible library calls are
embedded with `Except PyErr`; the constructors of `PyErr` cover both the
exception classes the underlying libraries actually raise (`typeError`,
`valueError`, `zeroDivisionError`) and the error names the specification postulates
(`invalidSpec`, `invalidFactor`, `invalidInput`, `degenerateSignal`,
`insufficientSamples`), so that claims about the latter are statable.

Two numeric kernels of scipy have irrational outputs that no claim
depends on (the Butterworth coefficient values produced by
`scipy.signal.butter`, the Hamming-window FIR taps used inside
`scipy.signal.decimate`, and the FFT-based imaginary part of
`scipy.signal.hilbert`).  Those value tables are replaced by fixed
executable rational stand-ins with the same shape and structure; every
structural property the source relies on (section count, output
lengths, error conditions, linearity of the filters, realness of the
real part) is embedded faithfully.  Division is embedded with the IEEE
behaviour of numpy, not with Lean total division: dividing by a value
equal to zero produces a non-finite result (`NpVal.nonfinite`), never a
default value and never an exception.
-/

set_option maxRecDepth 20000

namespace Rem

/-- Error domain: actual Python exception classes raised by numpy/scipy
(`typeError`, `valueError`, `zeroDivisionError`) together with the named
error taxonomy of the specification, so claims mentioning the latter can
be stated. -/
inductive PyErr
  | typeError
  | valueError
  | zeroDivisionError
  | invalidSpec
  | invalidFactor
  | invalidInput
  | degenerateSignal
  | insufficientSamples
deriving DecidableEq, Repr

instance {ε α : Type _} [DecidableEq ε] [DecidableEq α] : DecidableEq (Except ε α)
  | .ok a, .ok b =>
    if h : a = b then .isTrue (by rw [h]) else .isFalse fun hh => h (Except.ok.inj hh)
  | .ok _, .error _ => .isFalse fun hh => Except.noConfusion hh
  | .error _, .ok _ => .isFalse fun hh => Except.noConfusion hh
  | .error a, .error b =>
    if h : a = b then .isTrue (by rw [h]) else .isFalse fun hh => h (Except.error.inj hh)

/-- A numpy floating value in exact form.  `fin c r` denotes the real
number `c * Real.sqrt r` (with `0 ≤ r` in every value the pipeline
builds); `nonfinite` collapses IEEE `inf`, `-inf` and `nan`, which the
claims never need to distinguish.  This form is closed under the one
irrational operation of the pipeline, division by a standard deviation
`Real.sqrt variance` as performed by `scipy.stats.zscore`. -/
inductive NpVal
  | fin (c : ℚ) (r : ℚ)
  | nonfinite
deriving DecidableEq, Repr

/-- numpy division on exact values: `(c₁√r₁) / (c₂√r₂)`.  A denominator
whose value is zero (`c₂ = 0` or `r₂ = 0`) yields a non-finite IEEE
result (`0/0 = nan`, `x/0 = ±inf`); otherwise
`(c₁√r₁)/(c₂√r₂) = (c₁/(c₂r₂))·√(r₁r₂)` exactly. -/
def NpVal.div : NpVal → NpVal → NpVal
  | .fin c₁ r₁, .fin c₂ r₂ =>
    if c₂ = 0 ∨ r₂ = 0 then .nonfinite else .fin (c₁ / (c₂ * r₂)) (r₁ * r₂)
  | _, _ => .nonfinite

/-- np.mean of a signal (mean of an empty signal is never used on a
path any claim exercises). -/
def mean (x : List ℚ) : ℚ := x.sum / x.length

/-- Population variance (ddof 0), the default of `scipy.stats.zscore`. -/
def pvar (x : List ℚ) : ℚ := mean (x.map fun xi => (xi - mean x) ^ 2)

/-- scipy.stats.zscore: `(x - x.mean()) / x.std()` elementwise, with
`std = Real.sqrt pvar` represented exactly as `NpVal.fin 1 (pvar x)`.
No variance check is performed, exactly as in the library: a
zero-variance input makes every sample `0 / 0 = nan`. -/
def zscore (x : List ℚ) : List NpVal :=
  x.map fun xi => NpVal.div (.fin (xi - mean x) 1) (.fin 1 (pvar x))

/-- Anti-aliasing FIR filter applied inside `scipy.signal.decimate`
(ftype fir).  The real library uses `firwin(20*q+1, 1/q)` Hamming taps,
which are irrational and influence no claim; the stand-in is a fixed
3-tap causal low-pass `y i = x i / 4 + x (i-1) / 2 + x (i-2) / 4` with
zero initial history, preserving length and linearity. -/
def firFilter (x : List ℚ) : List ℚ :=
  List.zipWith (fun xi p => xi / 4 + p.1 / 2 + p.2 / 4) x (List.zip (0 :: x) (0 :: 0 :: x))

/-- Subsampling step `y[::q]` of `scipy.signal.decimate`: every `q`-th
sample starting at index 0, hence `⌈n/q⌉` output samples. -/
def everyNth (q : ℕ) (x : List ℚ) : List ℚ :=
  (List.range ((x.length + q - 1) / q)).map fun i => x.getD (i * q) 0

/-- rem.py line 29-32, `downsample(raw_sig, factor=16)`: calls
`scipy.signal.decimate(raw_sig, factor, ftype=fir)` with no validation
of its own.  The library failure modes, in the order the source hits
them: `operator.index(q)` raises `TypeError` when `q` is not an integer
(embedded as a non-integral rational); the anti-aliasing design
`firwin(20*q + 1, 1./q)` evaluates `1./q`, which raises
`ZeroDivisionError` at `q = 0`; and `firwin` rejects a normalized
cutoff outside `(0, 1)` with `ValueError` — for an integer `q` the
cutoff `1/q` lies in `(0, 1)` exactly when `q ≥ 2`, so `q = 1`
(cutoff `1.0`, at Nyquist) and negative `q` (negative cutoff) both
fail with `ValueError`.  Only integer factors `≥ 2` succeed. -/
def downsample (raw_sig : List ℚ) (factor : ℚ) : Except PyErr (List ℚ) :=
  if factor.den ≠ 1 then .error .typeError
  else if factor.num = 0 then .error .zeroDivisionError
  else if factor.num < 2 then .error .valueError
  else .ok (everyNth factor.num.toNat (firFilter raw_sig))

/-- rem.py line 37, `int(fs // factor)`: the sampling rate attached to
the decimated signal inside `get_band_power`; Python floor division
followed by `int` is the floor of the exact quotient. -/
def dwnFs (fs factor : ℚ) : ℤ := (fs / factor).floor

/-- A second-order filter section `(b0, b1, b2, a1, a2)` of a cascade in
the sos format of scipy (`a0` is normalized to 1 by the library). -/
abbrev SosSection := ℚ × ℚ × ℚ × ℚ × ℚ

/-- rem.py lines 11-14, `make_sos_filter(order, low, high, btype, fs)`:
`scipy.signal.butter(order, [low, high], btype, output=sos, fs=fs)`.
The source only ever calls it with btype bandpass (line 18).  The
library validates `0 < low` and `high < fs/2` (critical frequencies must
satisfy `0 < Wn < 1`) and `low < high`, raising `ValueError` otherwise.
A valid spec yields `order` second-order sections (a bandpass
Butterworth of analog order N has 2N poles, hence N biquads).  The
numeric coefficient values are irrational (bilinear-transform tangents)
and influence no claim; each section is a fixed stable stand-in biquad
`b = (1, 2, 1)`, `a = (1, 0, 0)` sharing the structural facts the source
relies on (three-term numerator and denominator, nonzero b2).  The
`lru_cache` memoization on the source function only affects performance
and is not modelled. -/
def make_sos_filter (order : ℕ) (low high fs : ℚ) : Except PyErr (List SosSection) :=
  if 0 < low ∧ low < high ∧ high < fs / 2 then
    .ok (List.replicate order ((1 : ℚ), (2 : ℚ), (1 : ℚ), (0 : ℚ), (0 : ℚ)))
  else .error .valueError

/-- Default padding length of `scipy.signal.sosfiltfilt`:
`3 * (2 * n_sections + 1 - min(#(b2 = 0), #(a2 = 0)))`. -/
def padlenOf (sos : List SosSection) : ℕ :=
  3 * (2 * sos.length + 1 -
    min (sos.countP fun s => decide (s.2.2.1 = 0))
        (sos.countP fun s => decide (s.2.2.2.2 = 0)))

/-- Odd extension used by `sosfiltfilt` before filtering: prepends
`2*x[0] - x[n], ..., 2*x[0] - x[1]` and appends the mirrored analogue at
the right edge, giving length `len x + 2n`. -/
def oddExt (x : List ℚ) (n : ℕ) : List ℚ :=
  ((List.range n).map fun i => 2 * x.getD 0 0 - x.getD (n - i) 0)
    ++ x
    ++ ((List.range n).map fun i => 2 * x.getD (x.length - 1) 0 - x.getD (x.length - 2 - i) 0)

/-- One direct-form biquad step stream: carries the two previous inputs
and the two previous outputs, producing
`y = b0*x + b1*x1 + b2*x2 - a1*y1 - a2*y2`. -/
def biquadAux (b0 b1 b2 a1 a2 : ℚ) : List ℚ → ℚ × ℚ → ℚ × ℚ → List ℚ
  | [], _, _ => []
  | x :: xs, (x1, x2), (y1, y2) =>
    let y := b0 * x + b1 * x1 + b2 * x2 - a1 * y1 - a2 * y2
    y :: biquadAux b0 b1 b2 a1 a2 xs (x, x1) (y, y1)

/-- Application of one second-order section with zero initial state
(the `zi` transient handling of scipy only affects edge values no claim
inspects; the odd extension is embedded, the steady-state `zi` solve is
modelled as zero state). -/
def biquad (s : SosSection) (x : List ℚ) : List ℚ :=
  biquadAux s.1 s.2.1 s.2.2.1 s.2.2.2.1 s.2.2.2.2 x (0, 0) (0, 0)

/-- `scipy.signal.sosfilt`: the cascade of the second-order sections. -/
def sosfilt (sos : List SosSection) (x : List ℚ) : List ℚ :=
  sos.foldl (fun acc s => biquad s acc) x

/-- `scipy.signal.sosfiltfilt(sos, x)` (zero-phase forward-backward
filtering): raises `ValueError` when `len x ≤ padlen` (the edge-effect
padding requirement), else odd-extends by `padlen`, filters forward,
filters the reversal, reverses back and slices the original extent. -/
def sosfiltfilt (sos : List SosSection) (x : List ℚ) : Except PyErr (List ℚ) :=
  let edge := padlenOf sos
  if x.length ≤ edge then .error .valueError
  else
    let ext := oddExt x edge
    let fwd := sosfilt sos ext
    let bwd := (sosfilt sos fwd.reverse).reverse
    .ok ((bwd.drop edge).take x.length)

/-- rem.py lines 17-20, `bandpass(sig, low, high, fs=1250, order=4)`:
designs (or fetches) the sos filter and applies `sosfiltfilt`.  Any
failure is the propagated library exception; the function adds no
handling of its own. -/
def bandpass (sig : List ℚ) (low high fs : ℚ) (order : ℕ) : Except PyErr (List ℚ) :=
  match make_sos_filter order low high fs with
  | .error e => .error e
  | .ok sos => sosfiltfilt sos sig

/-- `scipy.signal.hilbert`: the analytic signal, a complex array of the
same length whose real part is the input.  The FFT-built imaginary part
is irrational and influences no claim; the stand-in imaginary part is
the executable linear map `im i = x (i+1) - x i` (zero past the end). -/
def hilbert (x : List ℚ) : List (ℚ × ℚ) :=
  List.zipWith (fun xi ni => (xi, ni - xi)) x (x.drop 1 ++ [0])

/-- rem.py lines 35-41, `get_band_power(raw_sig, low, high, fs=20000,
factor=16, order=4)`: decimate by `factor`, attach rate
`int(fs // factor)`, bandpass at that rate, Hilbert transform, then
`np.abs(h)**2` which is exactly `re^2 + im^2` samplewise. -/
def get_band_power (raw_sig : List ℚ) (low high fs factor : ℚ) (order : ℕ) :
    Except PyErr (List ℚ) :=
  match downsample raw_sig factor with
  | .error e => .error e
  | .ok dwn_sig =>
    match bandpass dwn_sig low high ((dwnFs fs factor : ℤ) : ℚ) order with
    | .error e => .error e
    | .ok f_sig => .ok ((hilbert f_sig).map fun z => z.1 ^ 2 + z.2 ^ 2)

/-- rem.py lines 44-48, `delta_theta(lfp, low_delta, high_delta,
low_theta, high_theta, fs=20000)`: the theta band power, then the delta
band power (both with default factor 16 and order 4), then the
elementwise quotient of the two z-scored signals.  There is no variance
check and no error handling of any kind: the only failures are
exceptions propagated out of `get_band_power`, and a zero-variance
power signal flows straight into the unguarded division. -/
def delta_theta (lfp : List ℚ) (low_delta high_delta low_theta high_theta fs : ℚ) :
    Except PyErr (List NpVal) :=
  match get_band_power lfp low_theta high_theta fs 16 4,
        get_band_power lfp low_delta high_delta fs 16 4 with
  | .ok theta_power, .ok delta_power =>
    .ok (List.zipWith NpVal.div (zscore theta_power) (zscore delta_power))
  | .error e, _ => .error e
  | _, .error e => .error e

/-- np.linspace(start, stop, n) with the default inclusive endpoint:
`n` points `start + i * (stop - start) / (n - 1)`; a single point is
`start` alone. -/
def np_linspace (start stop : ℚ) (n : ℕ) : List ℚ :=
  if n = 1 then [start]
  else (List.range n).map fun (i : ℕ) =>
    start + (i : ℚ) * ((stop - start) / ((n : ℚ) - 1))

/-- np.gradient(f, t) with a coordinate array (edge order 1): raises
`ValueError` when fewer than 2 samples (or mismatched shapes); interior
points use the nonuniform centered quadratic-fit formula, the two
endpoints use one-sided differences. -/
def np_gradient (f t : List ℚ) : Except PyErr (List ℚ) :=
  if f.length < 2 ∨ t.length ≠ f.length then .error .valueError
  else
    .ok ((List.range f.length).map fun i =>
      if i = 0 then (f.getD 1 0 - f.getD 0 0) / (t.getD 1 0 - t.getD 0 0)
      else if i = f.length - 1 then
        (f.getD i 0 - f.getD (i - 1) 0) / (t.getD i 0 - t.getD (i - 1) 0)
      else
        let hs := t.getD i 0 - t.getD (i - 1) 0
        let hd := t.getD (i + 1) 0 - t.getD i 0
        (hs ^ 2 * f.getD (i + 1) 0 + (hd ^ 2 - hs ^ 2) * f.getD i 0
            - hd ^ 2 * f.getD (i - 1) 0) / (hs * hd * (hd + hs)))

/-- rem.py lines 51-58 split into its intermediate values:
`speed(acc_sig, factor=16, fs=20000)` calls `downsample(acc_sig)` —
note: WITHOUT passing `factor`, so the decimation factor is always the
default 16 — then builds `dwn_fs = fs / factor` (true division, using
the parameter), `t = np.linspace(0, n_pts / dwn_fs, n_pts)` and
`d_motion = np.gradient(motion, t)`.  This returns the triple
`(motion, t, d_motion)` so the time axis is inspectable; `speed` below
projects out the derivative exactly as the source returns it. -/
def speed_parts (acc_sig : List ℚ) (factor fs : ℚ) :
    Except PyErr (List ℚ × List ℚ × List ℚ) :=
  match downsample acc_sig 16 with
  | .error e => .error e
  | .ok motionSig =>
    let dwn_fs := fs / factor
    let n_pts := motionSig.length
    let end_time := (n_pts : ℚ) / dwn_fs
    let t := np_linspace 0 end_time n_pts
    match np_gradient motionSig t with
    | .error e => .error e
    | .ok d_motion => .ok (motionSig, t, d_motion)

/-- rem.py lines 51-58, `speed`: the derivative component of
`speed_parts`. -/
def speed (acc_sig : List ℚ) (factor fs : ℚ) : Except PyErr (List ℚ) :=
  match speed_parts acc_sig factor fs with
  | .error e => .error e
  | .ok p => .ok p.2.2

/-- rem.py lines 61-64, `is_sleeping`: the ratio from `delta_theta`
followed by the motion derivative from `speed` (with its default
factor 16), returned as a pair; failures propagate. -/
def is_sleeping (lfp acc_sig : List ℚ)
    (low_delta high_delta low_theta high_theta fs : ℚ) :
    Except PyErr (List NpVal × List ℚ) :=
  match delta_theta lfp low_delta high_delta low_theta high_theta fs with
  | .error e => .error e
  | .ok r =>
    match speed acc_sig 16 fs with
    | .error e => .error e
    | .ok m => .ok (r, m)

/-! ### State-threading translation for the frame claim

Each numpy/scipy call appearing in rem.py lines 17-64
(`signal.decimate`, `signal.sosfiltfilt`, `signal.hilbert`, `zscore`,
`np.linspace`, `np.gradient` and the arithmetic operators) allocates and
returns a fresh array; no statement of those lines assigns into an
argument array (there is no in-place operator and no slice assignment on
a parameter).  The `_st` translations make that observable: each stage
takes its input buffer and returns the buffer exactly as the source
statements leave it, alongside the stage result.  A source line mutating
its input would be translated here as a changed first component. -/

/-- State-threading form of `downsample` (line 31 reads `raw_sig` and
returns the fresh array built by `scipy.signal.decimate`). -/
def downsample_st (raw_sig : List ℚ) (factor : ℚ) : List ℚ × Except PyErr (List ℚ) :=
  (raw_sig, downsample raw_sig factor)

/-- State-threading form of `bandpass` (line 19 reads `sig` and returns
the fresh array built by `scipy.signal.sosfiltfilt`). -/
def bandpass_st (sig : List ℚ) (low high fs : ℚ) (order : ℕ) :
    List ℚ × Except PyErr (List ℚ) :=
  (sig, bandpass sig low high fs order)

/-- State-threading form of `get_band_power` (lines 36-41: the raw
buffer is read once by `downsample`; all later statements operate on the
fresh intermediate arrays). -/
def get_band_power_st (raw_sig : List ℚ) (low high fs factor : ℚ) (order : ℕ) :
    List ℚ × Except PyErr (List ℚ) :=
  let s1 := downsample_st raw_sig factor
  (s1.1,
    match s1.2 with
    | .error e => .error e
    | .ok dwn_sig =>
      match (bandpass_st dwn_sig low high ((dwnFs fs factor : ℤ) : ℚ) order).2 with
      | .error e => .error e
      | .ok f_sig => .ok ((hilbert f_sig).map fun z => z.1 ^ 2 + z.2 ^ 2))

/-- State-threading form of `delta_theta` (lines 45-47: the lfp buffer
is read by the two `get_band_power` calls; `zscore` and the division
build fresh arrays). -/
def delta_theta_st (lfp : List ℚ) (low_delta high_delta low_theta high_theta fs : ℚ) :
    List ℚ × Except PyErr (List NpVal) :=
  let s1 := get_band_power_st lfp low_theta high_theta fs 16 4
  let s2 := get_band_power_st s1.1 low_delta high_delta fs 16 4
  (s2.1,
    match s1.2, s2.2 with
    | .ok theta_power, .ok delta_power =>
      .ok (List.zipWith NpVal.div (zscore theta_power) (zscore delta_power))
    | .error e, _ => .error e
    | _, .error e => .error e)

/-- State-threading form of `speed` (lines 52-57: the accelerometer
buffer is read once by `downsample`; `np.linspace` and `np.gradient`
build fresh arrays). -/
def speed_st (acc_sig : List ℚ) (factor fs : ℚ) : List ℚ × Except PyErr (List ℚ) :=
  let s1 := downsample_st acc_sig 16
  (s1.1,
    match s1.2 with
    | .error e => .error e
    | .ok motionSig =>
      let t := np_linspace 0 ((motionSig.length : ℚ) / (fs / factor)) motionSig.length
      match np_gradient motionSig t with
      | .error e => .error e
      | .ok d_motion => .ok d_motion)

/-- State-threading form of `is_sleeping` (lines 62-63). -/
def is_sleeping_st (lfp acc_sig : List ℚ)
    (low_delta high_delta low_theta high_theta fs : ℚ) :
    (List ℚ × List ℚ) × Except PyErr (List NpVal × List ℚ) :=
  let s1 := delta_theta_st lfp low_delta high_delta low_theta high_theta fs
  let s2 := speed_st acc_sig 16 fs
  ((s1.1, s2.1),
    match s1.2, s2.2 with
    | .ok r, .ok m => .ok (r, m)
    | .error e, _ => .error e
    | _, .error e => .error e)

/-! ### Concrete fixtures

Inputs used by witnesses and counterexamples, with the intermediate
arrays of the pipeline on the impulse input written out as literals (the
values were obtained by evaluating the definitions above; every literal
below is verified against those definitions by kernel computation in the
proofs that use it). -/

/-- An LFP fixture: a unit impulse at sample 192 of a 448-sample trace,
chosen so the impulse survives decimation by 16 (192 = 12 · 16) and the
band-power output has nonzero variance. -/
def impulseLfp : List ℚ := List.replicate 192 0 ++ 1 :: List.replicate 255 0

/-- `get_band_power impulseLfp _ _ 20000 16 4`: the impulse band power,
a 28-sample signal of nonzero variance. -/
def impulsePow : List ℚ :=
  [0, 0, 0, 1/16, 113/8, 692, 13000, 118825, 612794, 2020564, 4744168,
    33229625/4, 20960225/2, 8915764, 4836104, 1598233, 306250, 31700, 1576,
    481/16, 1/8, 0, 0, 0, 0, 0, 0, 0]

/-! ### Length and shape lemmas -/

theorem biquadAux_length (b0 b1 b2 a1 a2 : ℚ) :
    ∀ (xs : List ℚ) (p q : ℚ × ℚ),
      (biquadAux b0 b1 b2 a1 a2 xs p q).length = xs.length
  | [], _, _ => rfl
  | x :: xs, (x1, x2), (y1, y2) => by
    simpa [biquadAux] using biquadAux_length b0 b1 b2 a1 a2 xs _ _

theorem biquad_length (s : SosSection) (x : List ℚ) :
    (biquad s x).length = x.length :=
  biquadAux_length _ _ _ _ _ _ _ _

theorem sosfilt_length :
    ∀ (sos : List SosSection) (x : List ℚ), (sosfilt sos x).length = x.length
  | [], _ => rfl
  | s :: rest, x => by
    show (List.foldl _ (biquad s x) rest).length = x.length
    rw [show List.foldl (fun acc s => biquad s acc) (biquad s x) rest
          = sosfilt rest (biquad s x) from rfl,
      sosfilt_length rest (biquad s x), biquad_length]

theorem oddExt_length (x : List ℚ) (n : ℕ) :
    (oddExt x n).length = x.length + 2 * n := by
  simp [oddExt]
  omega

theorem sosfiltfilt_ok_length {sos : List SosSection} {x out : List ℚ}
    (h : sosfiltfilt sos x = .ok out) : out.length = x.length := by
  simp only [sosfiltfilt] at h
  split at h
  · exact absurd h (by simp)
  · obtain rfl : List.take x.length (List.drop (padlenOf sos)
        ((sosfilt sos (sosfilt sos (oddExt x (padlenOf sos))).reverse).reverse)) = out :=
      Except.ok.inj h
    simp only [List.length_take, List.length_drop, List.length_reverse,
      sosfilt_length, oddExt_length]
    omega

theorem firFilter_length (x : List ℚ) : (firFilter x).length = x.length := by
  simp [firFilter]

theorem everyNth_length (q : ℕ) (x : List ℚ) :
    (everyNth q x).length = (x.length + q - 1) / q := by
  simp [everyNth]

theorem hilbert_length (x : List ℚ) : (hilbert x).length = x.length := by
  cases x <;> simp [hilbert]

theorem zscore_length (x : List ℚ) : (zscore x).length = x.length := by
  simp [zscore]

theorem downsample_ok {raw_sig : List ℚ} {f : ℚ}
    (hden : f.den = 1) (hnum : 2 ≤ f.num) :
    downsample raw_sig f = .ok (everyNth f.num.toNat (firFilter raw_sig)) := by
  rw [downsample, if_neg (by simp [hden]), if_neg (by omega), if_neg (by omega)]

/-! ### Error classification: which exceptions each stage can produce -/

theorem downsample_error {raw_sig : List ℚ} {f : ℚ} {e : PyErr}
    (h : downsample raw_sig f = .error e) :
    e = .typeError ∨ e = .zeroDivisionError ∨ e = .valueError := by
  unfold downsample at h
  split at h
  · exact Or.inl (Except.error.inj h).symm
  · split at h
    · exact Or.inr (Or.inl (Except.error.inj h).symm)
    · split at h
      · exact Or.inr (Or.inr (Except.error.inj h).symm)
      · exact absurd h (by simp)

theorem make_sos_filter_error {order : ℕ} {low high fs : ℚ} {e : PyErr}
    (h : make_sos_filter order low high fs = .error e) : e = .valueError := by
  unfold make_sos_filter at h
  split at h
  · exact absurd h (by simp)
  · exact (Except.error.inj h).symm

theorem sosfiltfilt_error {sos : List SosSection} {x : List ℚ} {e : PyErr}
    (h : sosfiltfilt sos x = .error e) : e = .valueError := by
  simp only [sosfiltfilt] at h
  split at h
  · exact (Except.error.inj h).symm
  · exact absurd h (by simp)

theorem bandpass_error {sig : List ℚ} {low high fs : ℚ} {order : ℕ} {e : PyErr}
    (h : bandpass sig low high fs order = .error e) : e = .valueError := by
  cases hm : make_sos_filter order low high fs with
  | error e2 =>
    simp only [bandpass, hm] at h
    obtain rfl : e2 = e := Except.error.inj h
    exact make_sos_filter_error hm
  | ok sos =>
    simp only [bandpass, hm] at h
    exact sosfiltfilt_error h

theorem bandpass_ok_length {sig out : List ℚ} {low high fs : ℚ} {order : ℕ}
    (h : bandpass sig low high fs order = .ok out) : out.length = sig.length := by
  cases hm : make_sos_filter order low high fs with
  | error e2 => simp only [bandpass, hm] at h; exact Except.noConfusion h
  | ok sos =>
    simp only [bandpass, hm] at h
    exact sosfiltfilt_ok_length h

theorem get_band_power_error {raw_sig : List ℚ} {low high fs factor : ℚ}
    {order : ℕ} {e : PyErr}
    (h : get_band_power raw_sig low high fs factor order = .error e) :
    e = .typeError ∨ e = .zeroDivisionError ∨ e = .valueError := by
  cases hd : downsample raw_sig factor with
  | error e2 =>
    simp only [get_band_power, hd] at h
    obtain rfl : e2 = e := Except.error.inj h
    exact downsample_error hd
  | ok dwn_sig =>
    cases hb : bandpass dwn_sig low high ((dwnFs fs factor : ℤ) : ℚ) order with
    | error e3 =>
      simp only [get_band_power, hd, hb] at h
      obtain rfl : e3 = e := Except.error.inj h
      exact Or.inr (Or.inr (bandpass_error hb))
    | ok f_sig =>
      simp only [get_band_power, hd, hb] at h
      exact Except.noConfusion h

theorem get_band_power_ok {raw_sig l : List ℚ} {low high fs factor : ℚ} {order : ℕ}
    (h : get_band_power raw_sig low high fs factor order = .ok l) :
    ∃ dwn_sig f_sig, downsample raw_sig factor = .ok dwn_sig ∧
      bandpass dwn_sig low high ((dwnFs fs factor : ℤ) : ℚ) order = .ok f_sig ∧
      l = (hilbert f_sig).map fun z => z.1 ^ 2 + z.2 ^ 2 := by
  cases hd : downsample raw_sig factor with
  | error e2 =>
    simp only [get_band_power, hd] at h
    exact Except.noConfusion h
  | ok dwn_sig =>
    cases hb : bandpass dwn_sig low high ((dwnFs fs factor : ℤ) : ℚ) order with
    | error e3 =>
      simp only [get_band_power, hd, hb] at h
      exact Except.noConfusion h
    | ok f_sig =>
      simp only [get_band_power, hd, hb] at h
      exact ⟨dwn_sig, f_sig, rfl, hb, (Except.ok.inj h).symm⟩

/-! ### Division and z-score structure lemmas -/

theorem map_const_replicate {α β : Type _} (f : α → β) (c : β) (h : ∀ a, f a = c) :
    ∀ xs : List α, xs.map f = List.replicate xs.length c
  | [] => rfl
  | x :: xs => by
    simp only [List.map_cons, h x, List.length_cons, List.replicate,
      map_const_replicate f c h xs]

theorem zscore_var_zero {x : List ℚ} (h : pvar x = 0) :
    zscore x = List.replicate x.length NpVal.nonfinite := by
  unfold zscore
  refine map_const_replicate _ _ (fun a => ?_) x
  rw [h]
  simp [NpVal.div]

theorem div_nonfinite_left (y : NpVal) : NpVal.div .nonfinite y = .nonfinite := rfl

theorem div_nonfinite_right (x : NpVal) : NpVal.div x .nonfinite = .nonfinite := by
  cases x <;> rfl

theorem zipWith_div_replicate_left :
    ∀ (n : ℕ) (ys : List NpVal),
      List.zipWith NpVal.div (List.replicate n .nonfinite) ys
        = List.replicate (min n ys.length) .nonfinite
  | 0, ys => by simp
  | n + 1, [] => by simp
  | n + 1, y :: ys => by
    simp only [List.replicate, List.zipWith_cons_cons, div_nonfinite_left,
      List.length_cons, Nat.succ_min_succ, zipWith_div_replicate_left n ys]

theorem zipWith_div_replicate_right :
    ∀ (xs : List NpVal) (n : ℕ),
      List.zipWith NpVal.div xs (List.replicate n .nonfinite)
        = List.replicate (min xs.length n) .nonfinite
  | [], n => by simp
  | x :: xs, 0 => by simp
  | x :: xs, n + 1 => by
    simp only [List.replicate, List.zipWith_cons_cons, div_nonfinite_right,
      List.length_cons, Nat.succ_min_succ, zipWith_div_replicate_right xs n]

/-! ### Claim C1 -/

/-- C1 (amended): `delta_theta` performs no variance check at all.  It
can never fail with `DegenerateSignal` (its only failures are the
`TypeError`/`ValueError` exceptions propagated from `get_band_power`),
and when either band power has exactly zero variance it returns — with
no error — the array of division artifacts: every sample of the ratio
is non-finite (`0/0` is `nan`, so the entire output is `nan`). -/
theorem C1_delta_theta_unchecked_variance
    (lfp : List ℚ) (low_delta high_delta low_theta high_theta fs : ℚ) :
    delta_theta lfp low_delta high_delta low_theta high_theta fs
      ≠ .error .degenerateSignal ∧
    ∀ theta_power delta_power,
      get_band_power lfp low_theta high_theta fs 16 4 = .ok theta_power →
      get_band_power lfp low_delta high_delta fs 16 4 = .ok delta_power →
      pvar theta_power = 0 ∨ pvar delta_power = 0 →
      delta_theta lfp low_delta high_delta low_theta high_theta fs
        = .ok (List.replicate (min theta_power.length delta_power.length)
            NpVal.nonfinite) := by
  constructor
  · intro hcon
    cases ht : get_band_power lfp low_theta high_theta fs 16 4 with
    | error e =>
      simp only [delta_theta, ht] at hcon
      obtain rfl : e = PyErr.degenerateSignal := Except.error.inj hcon
      rcases get_band_power_error ht with h | h | h <;> exact PyErr.noConfusion h
    | ok theta_power =>
      cases hdp : get_band_power lfp low_delta high_delta fs 16 4 with
      | error e =>
        simp only [delta_theta, ht, hdp] at hcon
        obtain rfl : e = PyErr.degenerateSignal := Except.error.inj hcon
        rcases get_band_power_error hdp with h | h | h <;> exact PyErr.noConfusion h
      | ok delta_power =>
        simp only [delta_theta, ht, hdp] at hcon
        exact Except.noConfusion hcon
  · intro theta_power delta_power ht hdp hv
    simp only [delta_theta, ht, hdp]
    rcases hv with hv | hv
    · rw [zscore_var_zero hv, zipWith_div_replicate_left, zscore_length]
    · rw [zscore_var_zero hv, zipWith_div_replicate_right, zscore_length]

/-- C1 counterexample: on the all-zero LFP of 448 samples (long enough
for every stage), both band powers are identically zero, so both have
exactly zero variance — yet `delta_theta` does not fail with
`DegenerateSignal`; it returns the all-`nan` array of the z-score
division artifacts. -/
theorem C1_counterexample :
    delta_theta (List.replicate 448 0) (1/10) 3 4 10 20000
      = .ok (List.replicate 28 NpVal.nonfinite) ∧
    delta_theta (List.replicate 448 0) (1/10) 3 4 10 20000
      ≠ .error .degenerateSignal := by
  have h : delta_theta (List.replicate 448 0) (1/10) 3 4 10 20000
      = .ok (List.replicate 28 NpVal.nonfinite) := by
    decide!
  refine ⟨h, ?_⟩
  rw [h]
  intro hc
  exact Except.noConfusion hc

/-- C1 witness: the amended theorem applied at the all-zero LFP input,
with both power signals equal to 28 zero samples (zero variance). -/
theorem C1_witness :
    delta_theta (List.replicate 448 0) (1/10) 3 4 10 20000
      ≠ .error .degenerateSignal ∧
    delta_theta (List.replicate 448 0) (1/10) 3 4 10 20000
      = .ok (List.replicate 28 NpVal.nonfinite) := by
  have h := C1_delta_theta_unchecked_variance (List.replicate 448 0) (1/10) 3 4 10 20000
  refine ⟨h.1, ?_⟩
  have h2 := h.2 (List.replicate 28 0) (List.replicate 28 0)
    (by decide!) (by decide!)
    (Or.inl (by decide!))
  simpa using h2

/-! ### Claim C3 -/

/-- C3 (amended): `downsample` performs no factor validation of its own
and never raises a named `InvalidFactor` error; the failures that do
occur are the unhandled exceptions of `scipy.signal.decimate`.  A
non-integer factor fails with `TypeError` (from `operator.index`);
factor 1 — which the claim covers as "less than 2" — fails with the
`ValueError` raised by `firwin` (the anti-aliasing cutoff `1/q = 1.0`
is not below Nyquist), not with `InvalidFactor`; integer factors `≥ 2`
succeed. -/
theorem C3_downsample_no_validation (sig : List ℚ) (f : ℚ) :
    downsample sig f ≠ .error .invalidFactor ∧
    (f.den ≠ 1 → downsample sig f = .error .typeError) ∧
    (f.den = 1 → f.num = 1 → downsample sig f = .error .valueError) ∧
    (f.den = 1 → 2 ≤ f.num → ∃ l, downsample sig f = .ok l) := by
  refine ⟨?_, ?_, ?_, ?_⟩
  · intro h
    rcases downsample_error h with h2 | h2 | h2 <;> exact PyErr.noConfusion h2
  · intro hden
    rw [downsample, if_pos hden]
  · intro hden hnum
    rw [downsample, if_neg (by simp [hden]), if_neg (by omega), if_pos (by omega)]
  · intro hden hnum
    exact ⟨_, downsample_ok hden hnum⟩

/-- C3 counterexample: factor 1 is an integer `< 2`, so per the claim it
must fail with `InvalidFactor`; the code instead propagates the
`ValueError` of `firwin` — there is no `InvalidFactor` anywhere. -/
theorem C3_counterexample :
    downsample (List.replicate 4 0) 1 = .error .valueError ∧
    downsample (List.replicate 4 0) 1 ≠ .error .invalidFactor := by
  have h : downsample (List.replicate 4 (0:ℚ)) 1 = .error .valueError := by
    decide!
  refine ⟨h, ?_⟩
  rw [h]
  intro hc
  exact PyErr.noConfusion (Except.error.inj hc)

/-- C3 witness: the amended theorem at factor 3/2 (TypeError), at
factor 1 (ValueError from the filter design) and at factor 2
(success). -/
theorem C3_witness :
    downsample (List.replicate 4 0) (3/2) = .error .typeError ∧
    downsample (List.replicate 4 0) 1 = .error .valueError ∧
    ∃ l, downsample (List.replicate 4 0) 2 = .ok l :=
  ⟨(C3_downsample_no_validation (List.replicate 4 0) (3/2)).2.1
      (by decide!),
    (C3_downsample_no_validation (List.replicate 4 0) 1).2.2.1
      (by decide!) (by decide!),
    (C3_downsample_no_validation (List.replicate 4 0) 2).2.2.2
      (by decide!) (by decide!)⟩

/-! ### Claim C4 -/

/-- C4 (amended): for an integer factor `≥ 2` decimation succeeds and
the output length is exactly `⌈len/factor⌉`, which lies within the
claimed `⌊len/factor⌋ .. ⌊len/factor⌋ + 1` window; but the sampling rate
`get_band_power` attaches to the output is `int(fs // factor)` — the
floor of the quotient — which equals the claimed exact `fs / factor`
only when the quotient is an integer (as with the defaults
`20000 / 16 = 1250`), not in general. -/
theorem C4_downsample_length_and_rate (sig : List ℚ) (f fs : ℚ)
    (hden : f.den = 1) (h2 : 2 ≤ f.num) :
    ∃ l, downsample sig f = .ok l ∧
      l.length = (sig.length + f.num.toNat - 1) / f.num.toNat ∧
      sig.length / f.num.toNat ≤ l.length ∧
      l.length ≤ sig.length / f.num.toNat + 1 ∧
      ((fs / f).den = 1 → (dwnFs fs f : ℚ) = fs / f) := by
  refine ⟨_, downsample_ok hden (by omega), ?_, ?_, ?_, ?_⟩
  · rw [everyNth_length, firFilter_length]
  · rw [everyNth_length, firFilter_length]
    exact Nat.div_le_div_right (by omega)
  · rw [everyNth_length, firFilter_length]
    calc (sig.length + f.num.toNat - 1) / f.num.toNat
        ≤ (sig.length + f.num.toNat) / f.num.toNat :=
          Nat.div_le_div_right (by omega)
      _ = sig.length / f.num.toNat + 1 := Nat.add_div_right _ (by omega)
  · intro hq
    have hnum : ((fs / f).num : ℚ) = fs / f := by
      have hd := Rat.num_div_den (fs / f)
      rw [hq] at hd
      simpa using hd
    simp only [dwnFs, Rat.floor, hq, if_pos]
    exact_mod_cast hnum

/-- C4 counterexample: with the valid integer factor 3 and the default
raw rate 20000, the rate attached by `get_band_power` is
`int(20000 // 3) = 6666`, not the exact quotient `20000 / 3` the claim
requires. -/
theorem C4_counterexample : (dwnFs 20000 3 : ℚ) ≠ 20000 / 3 := by
  decide!

/-- C4 witness: the amended theorem at a 5-sample signal, factor 2,
rate 10: output length `⌈5/2⌉ = 3` within the window `2..3`, and
`10 / 2` is integral so the attached rate is exactly 5. -/
theorem C4_witness :
    ∃ l, downsample (List.replicate 5 0) 2 = .ok l ∧
      l.length = ((List.replicate 5 (0:ℚ)).length + (2:ℚ).num.toNat - 1)
        / (2:ℚ).num.toNat ∧
      (List.replicate 5 (0:ℚ)).length / (2:ℚ).num.toNat ≤ l.length ∧
      l.length ≤ (List.replicate 5 (0:ℚ)).length / (2:ℚ).num.toNat + 1 ∧
      (((10:ℚ) / 2).den = 1 → (dwnFs 10 2 : ℚ) = 10 / 2) :=
  C4_downsample_length_and_rate (List.replicate 5 0) 2 10
    (by decide!) (by decide!)

/-! ### Claim C5 -/

/-- C5: whenever `get_band_power` returns, its output has the length of
the decimated signal and every element is non-negative (each sample is
`re^2 + im^2` of the analytic signal). -/
theorem C5_band_power_length_nonneg (raw_sig : List ℚ) (low high fs factor : ℚ)
    (order : ℕ) (l : List ℚ)
    (h : get_band_power raw_sig low high fs factor order = .ok l) :
    (∃ dwn_sig, downsample raw_sig factor = .ok dwn_sig ∧
      l.length = dwn_sig.length) ∧
    ∀ x ∈ l, 0 ≤ x := by
  obtain ⟨dwn_sig, f_sig, hd, hb, hl⟩ := get_band_power_ok h
  constructor
  · refine ⟨dwn_sig, hd, ?_⟩
    rw [hl, List.length_map, hilbert_length, bandpass_ok_length hb]
  · intro x hx
    rw [hl] at hx
    simp only [List.mem_map] at hx
    obtain ⟨z, hz, rfl⟩ := hx
    positivity

/-- C5 witness: the theorem at the all-zero 448-sample input, whose
band power is the 28-sample zero signal. -/
theorem C5_witness :
    ((∃ dwn_sig, downsample (List.replicate 448 0) 16 = .ok dwn_sig ∧
        (List.replicate 28 (0:ℚ)).length = dwn_sig.length) ∧
      ∀ x ∈ List.replicate 28 (0:ℚ), 0 ≤ x) :=
  C5_band_power_length_nonneg (List.replicate 448 0) 4 10 20000 16 4
    (List.replicate 28 0) (by decide!)

/-! ### Claim C8 -/

/-- C8 (amended): when the decimated accelerometer signal has fewer
than 2 samples, `speed` fails with the `ValueError` raised inside
`np.gradient`, not with a named `InsufficientSamples` error. -/
theorem C8_speed_short_input (acc_sig : List ℚ) (factor fs : ℚ) (m : List ℚ)
    (hd : downsample acc_sig 16 = .ok m) (hm : m.length < 2) :
    speed acc_sig factor fs = .error .valueError ∧
    speed acc_sig factor fs ≠ .error .insufficientSamples := by
  have hg : np_gradient m (np_linspace 0 ((m.length : ℚ) / (fs / factor)) m.length)
      = .error .valueError := by
    simp only [np_gradient]
    rw [if_pos (Or.inl hm)]
  have hparts : speed_parts acc_sig factor fs = .error .valueError := by
    simp only [speed_parts, hd, hg]
  constructor
  · simp only [speed, hparts]
  · simp only [speed, hparts]
    intro hc
    exact PyErr.noConfusion (Except.error.inj hc)

/-- C8 counterexample: the empty accelerometer signal decimates to an
empty signal (fewer than 2 samples); `speed` fails with `ValueError`,
not `InsufficientSamples`. -/
theorem C8_counterexample :
    speed ([] : List ℚ) 16 20000 = .error .valueError ∧
    speed ([] : List ℚ) 16 20000 ≠ .error .insufficientSamples := by
  have h : speed ([] : List ℚ) 16 20000 = .error .valueError := by
    decide!
  refine ⟨h, ?_⟩
  rw [h]
  intro hc
  exact PyErr.noConfusion (Except.error.inj hc)

/-- C8 witness: the amended theorem at the single-sample accelerometer
signal, whose decimated form has exactly one sample. -/
theorem C8_witness :
    speed [(0:ℚ)] 16 20000 = .error .valueError ∧
    speed [(0:ℚ)] 16 20000 ≠ .error .insufficientSamples :=
  C8_speed_short_input [0] 16 20000 [0] (by decide!) (by simp)

/-! ### Claim C9 -/

/-- C9: in the state-threading translation, every pipeline stage and
the orchestrator return their input buffers unchanged: no statement of
rem.py lines 17-64 writes into an argument array, so the buffer
component of each stage equals its input. -/
theorem C9_stages_preserve_inputs (lfp acc_sig sig raw_sig : List ℚ)
    (low_delta high_delta low_theta high_theta low high fs factor : ℚ) (order : ℕ) :
    (downsample_st sig factor).1 = sig ∧
    (bandpass_st sig low high fs order).1 = sig ∧
    (get_band_power_st raw_sig low high fs factor order).1 = raw_sig ∧
    (delta_theta_st lfp low_delta high_delta low_theta high_theta fs).1 = lfp ∧
    (speed_st acc_sig factor fs).1 = acc_sig ∧
    (is_sleeping_st lfp acc_sig low_delta high_delta low_theta high_theta fs).1
      = (lfp, acc_sig) :=
  ⟨rfl, rfl, rfl, rfl, rfl, rfl⟩

/-! ### Claim C6: lemmas about the time axis and gradient -/

theorem np_linspace_length (start stop : ℚ) (n : ℕ) :
    (np_linspace start stop n).length = n := by
  unfold np_linspace
  split
  · simp [*]
  · rw [List.length_map, List.length_range]

theorem np_linspace_getD (start stop : ℚ) {n i : ℕ} (hn : n ≠ 1) (hi : i < n) :
    (np_linspace start stop n).getD i 0
      = start + i * ((stop - start) / ((n : ℚ) - 1)) := by
  unfold np_linspace
  rw [if_neg hn]
  have hlen : i < ((List.range n).map
      fun (j : ℕ) => start + (j : ℚ) * ((stop - start) / ((n : ℚ) - 1))).length := by
    rw [List.length_map, List.length_range]
    exact hi
  rw [List.getD_eq_getElem _ _ hlen]
  simp only [List.getElem_map, List.getElem_range]

theorem np_gradient_ok {f t d : List ℚ} (h : np_gradient f t = .ok d) :
    2 ≤ f.length ∧ t.length = f.length := by
  simp only [np_gradient] at h
  split at h
  · exact Except.noConfusion h
  · rename_i hc
    push_neg at hc
    obtain ⟨h1, h2⟩ := hc
    exact ⟨by omega, h2⟩

theorem speed_parts_ok {acc_sig : List ℚ} {factor fs : ℚ} {m t d : List ℚ}
    (h : speed_parts acc_sig factor fs = .ok (m, t, d)) :
    downsample acc_sig 16 = .ok m ∧
    t = np_linspace 0 ((m.length : ℚ) / (fs / factor)) m.length ∧
    np_gradient m t = .ok d := by
  cases hd : downsample acc_sig 16 with
  | error e =>
    simp only [speed_parts, hd] at h
    exact Except.noConfusion h
  | ok m0 =>
    cases hg : np_gradient m0
        (np_linspace 0 ((m0.length : ℚ) / (fs / factor)) m0.length) with
    | error e =>
      simp only [speed_parts, hd, hg] at h
      exact Except.noConfusion h
    | ok d0 =>
      simp only [speed_parts, hd, hg] at h
      have h2 := Except.ok.inj h
      rw [Prod.mk.injEq, Prod.mk.injEq] at h2
      obtain ⟨rfl, rfl, rfl⟩ := h2
      exact ⟨rfl, rfl, hg⟩

/-- C6 (amended): `speed` builds a time axis of the same length as the
decimated signal, but `np.linspace(0, n/rate, n)` with an inclusive
endpoint spaces consecutive samples `n / ((n-1) * rate)` apart
(`rate = fs/factor`), a factor `n/(n-1)` wider than the claimed exact
`1/rate`; the derivative is `np.gradient` of the decimated signal with
respect to that axis. -/
theorem C6_speed_time_axis (acc_sig : List ℚ) (factor fs : ℚ) (m t d : List ℚ)
    (h : speed_parts acc_sig factor fs = .ok (m, t, d)) :
    t.length = m.length ∧
    (∀ i, i + 1 < m.length →
      t.getD (i + 1) 0 - t.getD i 0
        = (m.length : ℚ) / (((m.length : ℚ) - 1) * (fs / factor))) ∧
    np_gradient m t = .ok d := by
  obtain ⟨hd, ht, hg⟩ := speed_parts_ok h
  obtain ⟨h2, hlen⟩ := np_gradient_ok hg
  refine ⟨by rw [ht, np_linspace_length], ?_, hg⟩
  intro i hi
  have hn1 : m.length ≠ 1 := by omega
  rw [ht, np_linspace_getD _ _ hn1 hi, np_linspace_getD _ _ hn1 (by omega)]
  have hcast : ((m.length : ℚ) - 1) ≠ 0 := by
    have : (2 : ℚ) ≤ (m.length : ℚ) := by exact_mod_cast h2
    intro hzero
    nlinarith
  push_cast
  field_simp
  ring

/-- C6 counterexample: a 32-sample zero accelerometer trace decimates
to 2 samples at rate 1250; the claimed spacing is `1/1250`, but the
axis the code builds is `[0, 1/625]` — spacing `2/1250`. -/
theorem C6_counterexample :
    speed_parts (List.replicate 32 0) 16 20000
      = .ok (List.replicate 2 0, [0, 1/625], List.replicate 2 0) ∧
    ((1/625 : ℚ) - 0) ≠ 1 / (20000 / 16) := by
  constructor
  · decide!
  · decide!

/-- C6 witness: the amended theorem at the 32-sample zero trace; the
spacing of the 2-point axis is `2/(1 * 1250)`. -/
theorem C6_witness :
    ([0, 1/625] : List ℚ).getD 1 0 - ([0, 1/625] : List ℚ).getD 0 0
      = (2 : ℚ) / (((2 : ℚ) - 1) * (20000 / 16)) ∧
    np_gradient (List.replicate 2 0) [0, 1/625] = .ok (List.replicate 2 0) := by
  have h := C6_speed_time_axis (List.replicate 32 0) 16 20000
    (List.replicate 2 0) [0, 1/625] (List.replicate 2 0)
    (by decide!)
  refine ⟨?_, h.2.2⟩
  have h2 := h.2.1 0 (by simp)
  simpa using h2

/-! ### Claim C7: lemmas about the padding length -/

theorem countP_replicate {α : Type _} (p : α → Bool) (c : α) :
    ∀ n, (List.replicate n c).countP p = if p c then n else 0
  | 0 => by simp
  | n + 1 => by
    rw [List.replicate, List.countP_cons, countP_replicate p c n]
    by_cases hp : p c <;> simp [hp]

theorem padlen_placeholder (order : ℕ) :
    padlenOf (List.replicate order ((1:ℚ), (2:ℚ), (1:ℚ), (0:ℚ), (0:ℚ)))
      = 3 * (2 * order + 1) := by
  unfold padlenOf
  rw [List.length_replicate, countP_replicate, countP_replicate]
  norm_num

theorem make_sos_filter_ok {order : ℕ} {low high fs : ℚ}
    (h : 0 < low ∧ low < high ∧ high < fs / 2) :
    make_sos_filter order low high fs
      = .ok (List.replicate order ((1:ℚ), (2:ℚ), (1:ℚ), (0:ℚ), (0:ℚ))) := by
  simp only [make_sos_filter]
  rw [if_pos h]

theorem sosfiltfilt_ok_of_long {sos : List SosSection} {x : List ℚ}
    (hlen : padlenOf sos < x.length) :
    ∃ out, sosfiltfilt sos x = .ok out ∧ out.length = x.length := by
  refine ⟨List.take x.length (List.drop (padlenOf sos)
      ((sosfilt sos (sosfilt sos (oddExt x (padlenOf sos))).reverse).reverse)), ?_, ?_⟩
  · simp only [sosfiltfilt]
    rw [if_neg (by omega)]
  · simp only [List.length_take, List.length_drop, List.length_reverse,
      sosfilt_length, oddExt_length]
    omega

/-- C7 (amended): a too-short signal makes `bandpass` fail with the
`ValueError` raised inside `scipy.signal.sosfiltfilt` — there is no
named `InvalidInput` error in the code.  For a valid band spec the
minimum is dictated by the filter order exactly as the claim says
(padlen `3·(2·order+1)`, i.e. 27 at the default order 4): length
`≤ padlen` fails, length `> padlen` yields output of the input
length. -/
theorem C7_bandpass_min_length (sig : List ℚ) (low high fs : ℚ) (order : ℕ)
    (hv : 0 < low ∧ low < high ∧ high < fs / 2) :
    bandpass sig low high fs order ≠ .error .invalidInput ∧
    (sig.length ≤ 3 * (2 * order + 1) →
      bandpass sig low high fs order = .error .valueError) ∧
    (3 * (2 * order + 1) < sig.length →
      ∃ out, bandpass sig low high fs order = .ok out ∧
        out.length = sig.length) := by
  have hm := @make_sos_filter_ok order low high fs hv
  refine ⟨?_, ?_, ?_⟩
  · intro hc
    exact PyErr.noConfusion (bandpass_error hc)
  · intro hshort
    simp only [bandpass, hm]
    simp only [sosfiltfilt]
    rw [if_pos (by rw [padlen_placeholder]; omega)]
  · intro hlong
    obtain ⟨out, ho, hl⟩ := @sosfiltfilt_ok_of_long
      (List.replicate order ((1:ℚ), (2:ℚ), (1:ℚ), (0:ℚ), (0:ℚ))) sig
      (by rw [padlen_placeholder]; omega)
    refine ⟨out, ?_, hl⟩
    simp only [bandpass, hm]
    exact ho

/-- C7 counterexample: a 10-sample signal is below the minimum length
for order 4, and `bandpass` fails with `ValueError`, not with the
`InvalidInput` error the claim names. -/
theorem C7_counterexample :
    bandpass (List.replicate 10 0) 4 10 1250 4 = .error .valueError ∧
    bandpass (List.replicate 10 0) 4 10 1250 4 ≠ .error .invalidInput := by
  have h : bandpass (List.replicate 10 (0:ℚ)) 4 10 1250 4 = .error .valueError := by
    decide!
  refine ⟨h, ?_⟩
  rw [h]
  intro hc
  exact PyErr.noConfusion (Except.error.inj hc)

/-- C7 witness: the amended theorem at the boundary — 27 samples fail,
28 samples filter to a 28-sample output. -/
theorem C7_witness :
    bandpass (List.replicate 27 0) 4 10 1250 4 = .error .valueError ∧
    ∃ out, bandpass (List.replicate 28 0) 4 10 1250 4 = .ok out ∧
      out.length = (List.replicate 28 (0:ℚ)).length := by
  have hv : (0:ℚ) < 4 ∧ (4:ℚ) < 10 ∧ (10:ℚ) < 1250 / 2 := by norm_num
  exact ⟨(C7_bandpass_min_length (List.replicate 27 0) 4 10 1250 4 hv).2.1
      (by simp),
    (C7_bandpass_min_length (List.replicate 28 0) 4 10 1250 4 hv).2.2
      (by simp)⟩

/-! ### Claim C2 -/

/-- C2 (code bug): `speed` ignores its `factor` parameter in the
decimation step — line 52 calls `downsample(acc_sig)` with no factor,
so the signal is always decimated by the default 16 even though the
time axis uses `fs / factor`.  On a 64-sample input with factor 8 the
output has `⌈64/16⌉ = 4` samples, not the `64/8 = 8` the claim
requires. -/
theorem C2_speed_ignores_factor :
    speed_parts (List.replicate 64 0) 8 20000
      = .ok (List.replicate 4 0, [0, 1/1875, 2/1875, 1/625],
          List.replicate 4 0) ∧
    (List.replicate 4 (0:ℚ)).length ≠ 64 / 8 := by
  constructor
  · decide!
  · decide

/-! ### Claim C10 -/

theorem div_zero_denom (x : NpVal) (r : ℚ) :
    NpVal.div x (.fin 0 r) = .nonfinite := by
  cases x
  · simp [NpVal.div]
  · rfl

/-- C10: when both band powers come back with nonzero variance,
`delta_theta` returns without raising anything — the elementwise
division is unguarded — and any sample where the z-scored delta power
is zero (exactly: where the delta-power sample equals its mean) yields
a non-finite value in the returned ratio instead of an error. -/
theorem C10_unguarded_elementwise_division
    (lfp : List ℚ) (low_delta high_delta low_theta high_theta fs : ℚ)
    (theta_power delta_power : List ℚ)
    (ht : get_band_power lfp low_theta high_theta fs 16 4 = .ok theta_power)
    (hdp : get_band_power lfp low_delta high_delta fs 16 4 = .ok delta_power)
    (hvt : pvar theta_power ≠ 0) (hvd : pvar delta_power ≠ 0) :
    delta_theta lfp low_delta high_delta low_theta high_theta fs
      = .ok (List.zipWith NpVal.div (zscore theta_power) (zscore delta_power)) ∧
    ∀ i (hit : i < theta_power.length) (hid : i < delta_power.length),
      delta_power.getD i 0 = mean delta_power →
      (zscore delta_power).getD i NpVal.nonfinite
          = NpVal.fin 0 (pvar delta_power) ∧
      (List.zipWith NpVal.div (zscore theta_power)
          (zscore delta_power)).getD i NpVal.nonfinite = NpVal.nonfinite := by
  constructor
  · simp only [delta_theta, ht, hdp]
  · intro i hit hid hmean
    have hiz : i < (zscore delta_power).length := by
      rw [zscore_length]; exact hid
    have hid' : delta_power[i] = mean delta_power := by
      rw [List.getD_eq_getElem _ _ hid] at hmean
      exact hmean
    have hzd : (zscore delta_power).getD i NpVal.nonfinite
        = NpVal.fin 0 (pvar delta_power) := by
      rw [List.getD_eq_getElem _ _ hiz]
      simp only [zscore, List.getElem_map]
      rw [hid', sub_self]
      simp only [NpVal.div]
      rw [if_neg (by
        intro hc
        rcases hc with hc | hc
        · exact one_ne_zero hc
        · exact hvd hc)]
      rw [zero_div, one_mul]
    refine ⟨hzd, ?_⟩
    have hizW : i < (List.zipWith NpVal.div (zscore theta_power)
        (zscore delta_power)).length := by
      rw [List.length_zipWith, zscore_length, zscore_length]
      exact Nat.lt_min.mpr ⟨hit, hid⟩
    rw [List.getD_eq_getElem _ _ hizW, List.getElem_zipWith]
    have hzd2 : (zscore delta_power).get ⟨i, hiz⟩ = NpVal.fin 0 (pvar delta_power) := by
      rw [List.get_eq_getElem]
      rw [← List.getD_eq_getElem (zscore delta_power) NpVal.nonfinite hiz]
      exact hzd
    rw [List.get_eq_getElem] at hzd2
    rw [hzd2, div_zero_denom]

/-- C10 witness: the theorem applied at the impulse fixture, whose band
power has nonzero variance for both bands; `delta_theta` returns the
unguarded elementwise quotient without any error. -/
theorem C10_witness :
    delta_theta impulseLfp (1/10) 3 4 10 20000
      = .ok (List.zipWith NpVal.div (zscore impulsePow) (zscore impulsePow)) :=
  (C10_unguarded_elementwise_division impulseLfp (1/10) 3 4 10 20000
    impulsePow impulsePow
    (by decide!) (by decide!) (by decide!) (by decide!)).1

end Rem
